import Mathlib

/-!
Verification of the codex-client SDK core against its specification.

The Python sources are shallowly embedded:

* `JValue` models the JSON-like values that travel in raw event mappings
  (Python dicts decoded from diagnostic text).  A raw event mapping is an
  association list `List (String × JValue)`; `dget` is `dict.get`.
* `get_event_stream` embeds `MCPStreamingMiddleware.get_event_stream`
  (src/src/codex_sdk/mcp_middleware.py).  The asynchronous pulls from the
  queue are modelled as a list of pull outcomes: `some e` is a successful
  `queue.get`, `none` is an `asyncio.TimeoutError` of the 0.1 s wait.
* `Message` embeds the mutable state of `Message`
  (src/src/codex_sdk/message.py); `Message.get` returns the result, the
  updated state, and whether the remote-call task was awaited this call.
* `parse_event` embeds `parse_event` (src/src/codex_sdk/event.py) together
  with the Pydantic v2 lax validation of the event classes, including the
  lax string-to-integer coercion `model_validate` applies to `int` fields
  (`str_as_int`); float inputs, which also coerce when integral, are not
  representable because `JValue` carries no float values.
* `extract_event_payload` / `parse_event_from_message` embed
  src/src/codex_sdk/middleware/parser.py; the two stdlib decoders
  `ast.literal_eval` and `json.loads` are external library calls and are
  passed as function parameters.
* `extract_conversation_id` embeds `Session._extract_conversation_id`
  (src/src/codex_sdk/session.py), including the doubled backslash that the
  source writes inside a raw string, so the compiled regular expression
  demands a literal backslash and the letter b around the UUID.

Python exceptions are modelled with `Except String`; a total function that
returns `Option`/`Except` values raises nothing by construction.
-/

/-- JSON-like values carried in raw event mappings (Python objects decoded
from the diagnostic side channel). -/
inductive JValue where
  | null : JValue
  | bool (b : Bool) : JValue
  | num (n : Int) : JValue
  | str (s : String) : JValue
  | arr (xs : List JValue) : JValue
  | obj (fields : List (String × JValue)) : JValue

/-- A raw event mapping: a Python dict as an association list. -/
abbrev RawEvent := List (String × JValue)

/-- `dict.get`: first binding of a key wins (Python dict keys are unique). -/
def dget : List (String × JValue) → String → Option JValue
  | [], _ => none
  | (k, v) :: rest, key => if k = key then some v else dget rest key

@[simp] theorem dget_nil (key : String) : dget [] key = none := rfl

/-- `event.get('type') == t` for a Python string `t`: true only when the
`type` field is present and is that string. -/
def isType (e : RawEvent) (t : String) : Bool :=
  match dget e "type" with
  | some (JValue.str s) => s == t
  | _ => false

/-- Python truthiness of a decoded value (`if delta:`). -/
def truthy : JValue → Bool
  | JValue.null => false
  | JValue.bool b => b
  | JValue.num n => n != 0
  | JValue.str s => s != ""
  | JValue.arr xs => !xs.isEmpty
  | JValue.obj fs => !fs.isEmpty

/-! ## Event bridge: `MCPStreamingMiddleware.get_event_stream`

The loop pulls from `self._event_queue` with `asyncio.wait_for(..., 0.1)`.
A pull either returns an event (`some e`) or times out (`none`).  The loop
yields events, resets the consecutive-timeout counter on success, stops
right after a `task_complete` event, and gives up after
`max_consecutive_timeouts = 50` consecutive timeouts.  The function below
returns the yielded events and the number of pulls performed; the input
list is a long-enough prefix of the pull outcomes (when the list runs out
the model stops, a case the theorems never reach because they always stop
inside the list). -/

/-- `max_consecutive_timeouts` in the source. -/
def max_consecutive_timeouts : Nat := 50

/-- The loop body of `MCPStreamingMiddleware.get_event_stream`: first
argument is the pull-outcome trace, second the current value of
`consecutive_timeouts`.  Returns (yielded events, pulls performed). -/
def get_event_stream : List (Option RawEvent) → Nat → List RawEvent × Nat
  | [], _ => ([], 0)
  | none :: rest, t =>
    if t + 1 ≥ max_consecutive_timeouts then ([], 1)
    else
      let p := get_event_stream rest (t + 1)
      (p.1, p.2 + 1)
  | some e :: rest, _ =>
    if isType e "task_complete" then ([e], 1)
    else
      let p := get_event_stream rest 0
      (e :: p.1, p.2 + 1)

/-! ## Message: streaming iteration and final retrieval
(src/src/codex_sdk/message.py) -/

/-- The MCP tool-call result payload: `result.content` is a list of content
items, each of which may or may not carry a `text` attribute (an item
without the attribute is `none`).  A result object without a `content`
attribute behaves exactly like an empty list in every source path that
reads it, and is modelled as the empty list. -/
structure Payload where
  content : List (Option String)

/-- `Message._extract_text`, the pure part: collect the `text` of each
content item; join with newlines when any were found, else the empty
string (the source assigns the empty string both when `text_parts` is
empty and when there is no truthy `content`). -/
def extract_text (p : Payload) : String :=
  let parts := p.content.filterMap id
  if parts.isEmpty then "" else String.intercalate "\n" parts

/-- The mutable state of a `Message`.  `taskResult` is the payload the
background task resolves to (the success case of awaiting it);
`resultCache` is `_result_cache`, `streamedText` is `_streamed_text`,
`extracted` is `_extracted`, `finalText` is `_final_text`. -/
structure Message where
  streamedText : String
  resultCache : Option Payload
  taskResult : Payload
  extracted : Bool
  finalText : Option String

/-- `Message._get_result`: return the cache when set, else await the task,
cache its payload.  The returned `Bool` records whether the remote-call
task was awaited by this call. -/
def Message.getResult (m : Message) : Payload × Message × Bool :=
  match m.resultCache with
  | some r => (r, m, false)
  | none => (m.taskResult, { m with resultCache := some m.taskResult }, true)

/-- `Message.get`: always run `_get_result` first; return `_streamed_text`
when non-empty; otherwise run `_extract_text` (unless already extracted)
and return `_final_text`, raising `MessageError` when it is `none`.  The
`Bool` records whether the remote-call task was awaited.  `Message.get`
never touches the event stream: iteration lives in `messageIterate`. -/
def Message.get (m : Message) : Except String String × Message × Bool :=
  let r := Message.getResult m
  if r.2.1.streamedText ≠ "" then (Except.ok r.2.1.streamedText, r.2.1, r.2.2)
  else
    let s2 :=
      if r.2.1.extracted then r.2.1
      else { r.2.1 with finalText := some (extract_text r.1), extracted := true }
    match s2.finalText with
    | none => (Except.error "Failed to extract message text from response", s2, r.2.2)
    | some t => (Except.ok t, s2, r.2.2)

/-- `Message.__aiter__` driven to exhaustion over the raw events delivered
by the event stream: yields the truthy `delta` of each
`agent_message_delta` event (default empty string when the field is
missing), accumulating `_streamed_text`.  A truthy non-string delta makes
the source's `+=` raise `TypeError`.  Returns (yielded chunks, final
`_streamed_text`). -/
def messageIterate : List RawEvent → Except String (List String × String)
  | [] => Except.ok ([], "")
  | e :: rest =>
    if isType e "agent_message_delta" then
      let delta := (dget e "delta").getD (JValue.str "")
      if truthy delta then
        match delta with
        | JValue.str d => (messageIterate rest).map fun p => (d :: p.1, d ++ p.2)
        | _ => Except.error "TypeError: can only concatenate str"
      else messageIterate rest
    else messageIterate rest

/-- The chunks `Message.__aiter__` yields: the non-empty string deltas of
the `agent_message_delta` events, in order. -/
def delta_chunks (events : List RawEvent) : List String :=
  events.filterMap fun e =>
    if isType e "agent_message_delta" then
      match dget e "delta" with
      | some (JValue.str d) => if d == "" then none else some d
      | _ => none
    else none

/-- Concatenation of a list of strings in order. -/
def concat_strs : List String → String
  | [] => ""
  | s :: rest => s ++ concat_strs rest

/-- The `Message` state of a turn whose remote call has resolved to
`payload` and whose event stream has been drained by `__aiter__`. -/
def mk_drained (events : List RawEvent) (payload : Payload) : Except String Message :=
  (messageIterate events).map fun p =>
    { streamedText := p.2, resultCache := none, taskResult := payload,
      extracted := false, finalText := none }

/-- `Message.get` on a drained turn: the final text the turn's result
operation produces. -/
def message_get_after_drain (events : List RawEvent) (payload : Payload) :
    Except String String :=
  (mk_drained events payload).bind fun m => (Message.get m).1

/-! ## Typed event model: `parse_event` (src/src/codex_sdk/event.py)

Each Pydantic event class declares required fields; `extra="allow"` keeps
unknown extra fields on the decoded event.  `FieldShape` names the declared
type of a field, `checkShape` is its validation, `requiredFields` is the
transcription of the class declarations, and `parse_event` is the
dispatcher plus `model_validate`. -/

/-- The declared type of a required field of an event class. -/
inductive FieldShape where
  | str : FieldShape
  | int : FieldShape
  | list : FieldShape
  | dict : FieldShape
  | duration : FieldShape
  | invocation : FieldShape
  | okResult : FieldShape
  | outStream : FieldShape

/-- The characters Python's `\s` matches and whitespace stripping removes
(ASCII part). -/
def isSpaceChar (c : Char) : Bool :=
  c = ' ' || c = '\t' || c = '\n' || c = '\x0b' || c = '\x0c' || c = '\r'

/-- An ASCII decimal digit. -/
def isAsciiDigit (c : Char) : Bool := '0' ≤ c && c ≤ '9'

/-- Value of a run of decimal digits, most significant first. -/
def digitsVal : List Char → Nat → Nat
  | [], acc => acc
  | c :: rest, acc => digitsVal rest (acc * 10 + (c.toNat - 48))

/-- Pydantic-core's lax string-to-integer coercion, as `model_validate`
applies it to an `int` field fed a string: surrounding whitespace is
stripped; then an optional sign, a non-empty run of decimal digits, and
optionally a dot followed by zeros only (an integral decimal such as
"100.0").  Underscore separators, exponent notation, non-decimal
spellings and non-ASCII digits do not coerce. -/
def str_as_int (s : String) : Option Int :=
  let t := ((s.toList.dropWhile isSpaceChar).reverse.dropWhile isSpaceChar).reverse
  let sb : Int × List Char :=
    match t with
    | '+' :: rest => (1, rest)
    | '-' :: rest => (-1, rest)
    | _ => (1, t)
  let ds := sb.2.takeWhile isAsciiDigit
  let rest := sb.2.dropWhile isAsciiDigit
  if ds.isEmpty then none
  else
    let fracOk :=
      match rest with
      | [] => true
      | '.' :: frac => frac.all fun c => c = '0'
      | _ => false
    if fracOk then some (sb.1 * (digitsVal ds 0 : Int)) else none

/-- The value an `int` field takes under Pydantic v2 lax validation: an
integer as is, a string through `str_as_int`; booleans and every other
kind are rejected. -/
def intValue : JValue → Option Int
  | JValue.num n => some n
  | JValue.str s => str_as_int s
  | _ => none

/-- Does a value validate for an `int` field? -/
def intOk (v : JValue) : Bool := (intValue v).isSome

/-- Validation of one field against its declared shape, in Pydantic v2 lax
mode: `int` fields also accept numeric strings through `str_as_int`; `str`
fields accept only strings; `duration` is the `Duration` model
(`secs : int`, `nanos : int`), `invocation` is `McpToolInvocation`
(`server : str`, `tool : str`, `arguments : dict`), `okResult` is
`McpToolOkResult` (`Ok : dict`), `outStream` is the
`Literal["stdout", "stderr"]` of `ExecOutputStream`. -/
def checkShape : FieldShape → JValue → Bool
  | FieldShape.str, JValue.str _ => true
  | FieldShape.int, v => intOk v
  | FieldShape.list, JValue.arr _ => true
  | FieldShape.dict, JValue.obj _ => true
  | FieldShape.duration, JValue.obj d =>
    (match dget d "secs" with | some v => intOk v | none => false) &&
    (match dget d "nanos" with | some v => intOk v | none => false)
  | FieldShape.invocation, JValue.obj d =>
    (match dget d "server" with | some (JValue.str _) => true | _ => false) &&
    (match dget d "tool" with | some (JValue.str _) => true | _ => false) &&
    (match dget d "arguments" with | some (JValue.obj _) => true | _ => false)
  | FieldShape.okResult, JValue.obj d =>
    (match dget d "Ok" with | some (JValue.obj _) => true | _ => false)
  | FieldShape.outStream, JValue.str s => s == "stdout" || s == "stderr"
  | _, _ => false

/-- The required fields each event class declares (beyond the `type` tag
and the `_meta` metadata of the common base class `CodexEvent`). -/
def requiredFields : String → List (String × FieldShape)
  | "agent_message" => [("message", FieldShape.str)]
  | "agent_message_delta" => [("delta", FieldShape.str)]
  | "agent_reasoning" => [("text", FieldShape.str)]
  | "agent_reasoning_delta" => [("delta", FieldShape.str)]
  | "agent_reasoning_section_break" => []
  | "exec_command_begin" =>
    [("call_id", FieldShape.str), ("command", FieldShape.list),
     ("cwd", FieldShape.str), ("parsed_cmd", FieldShape.list)]
  | "exec_command_end" =>
    [("aggregated_output", FieldShape.str), ("call_id", FieldShape.str),
     ("duration", FieldShape.duration), ("exit_code", FieldShape.int),
     ("formatted_output", FieldShape.str), ("stderr", FieldShape.str),
     ("stdout", FieldShape.str)]
  | "exec_command_output_delta" =>
    [("call_id", FieldShape.str), ("chunk", FieldShape.str),
     ("stream", FieldShape.outStream)]
  | "mcp_tool_call_begin" =>
    [("call_id", FieldShape.str), ("invocation", FieldShape.invocation)]
  | "mcp_tool_call_end" =>
    [("call_id", FieldShape.str), ("duration", FieldShape.duration),
     ("invocation", FieldShape.invocation), ("result", FieldShape.okResult)]
  | "session_configured" =>
    [("history_entry_count", FieldShape.int), ("history_log_id", FieldShape.int),
     ("model", FieldShape.str), ("rollout_path", FieldShape.str),
     ("session_id", FieldShape.str)]
  | "task_complete" => [("last_agent_message", FieldShape.str)]
  | "task_started" => [("model_context_window", FieldShape.int)]
  | "token_count" => [("info", FieldShape.dict)]
  | _ => []

/-- The keys of `_EVENT_CLASS_MAP`. -/
def canonicalTags : List String :=
  ["agent_message", "agent_message_delta", "agent_reasoning",
   "agent_reasoning_delta", "agent_reasoning_section_break",
   "exec_command_begin", "exec_command_end", "exec_command_output_delta",
   "mcp_tool_call_begin", "mcp_tool_call_end", "session_configured",
   "task_complete", "task_started", "token_count"]

/-- `_EVENT_CLASS_MAP.get(event_type)` finds a class. -/
def isCanonical (t : String) : Bool := canonicalTags.contains t

/-- `EventMetadata` validation on the common base class: the `meta` field
is populated from the `_meta` alias (or, with `populate_by_name`, from the
key `meta`) and must be a mapping whose `requestId` (or, again by name,
`request_id`) validates as an `int` field — an integer or a numeric
string, through the lax coercion of `intValue`.  When the alias key is
present its value is used; an invalid value there is an error, not a
fallback to the field name. -/
def metaOf (raw : RawEvent) : Option Int :=
  match (match dget raw "_meta" with | some v => some v | none => dget raw "meta") with
  | some (JValue.obj m) =>
    (match dget m "requestId" with
     | some v => intValue v
     | none =>
       match dget m "request_id" with
       | some v => intValue v
       | none => none)
  | _ => none

/-- `reqs` all present in `raw` with their declared shapes. -/
def validateFields (reqs : List (String × FieldShape)) (raw : RawEvent) : Bool :=
  reqs.all fun p =>
    match dget raw p.1 with
    | some v => checkShape p.2 v
    | none => false

/-- The keys a class consumes (field names and aliases); every other key of
the payload is an extra field kept by `extra="allow"`. -/
def declaredKeys (t : String) : List String :=
  "type" :: "_meta" :: "meta" :: (requiredFields t).map Prod.fst

/-- A decoded typed event: the tag, the metadata's request id, the full
validated payload, and the extra fields `extra="allow"` preserved. -/
structure ParsedEvent where
  type : String
  request_id : Int
  data : List (String × JValue)
  extra : List (String × JValue)

/-- `event_class.model_validate(event_data)` for the class of tag `t`:
metadata plus every declared field, keeping unknown extras.  Validation
failures model Pydantic's `ValidationError`. -/
def validateTagged (t : String) (raw : RawEvent) : Except String ParsedEvent :=
  match metaOf raw with
  | some rid =>
    if validateFields (requiredFields t) raw then
      Except.ok
        { type := t, request_id := rid, data := raw,
          extra := raw.filter fun kv => !(declaredKeys t).contains kv.1 }
    else Except.error "ValidationError"
  | none => Except.error "ValidationError"

/-- The class lookup of `parse_event`: unknown tags are a hard error. -/
def dispatchTag (t : String) (raw : RawEvent) : Except String ParsedEvent :=
  if isCanonical t then validateTagged t raw
  else Except.error ("Unsupported event type: " ++ t)

/-- `parse_event`: read the `type` tag (must be a string), find the event
class, and validate the payload against it. -/
def parse_event (raw : RawEvent) : Except String ParsedEvent :=
  match dget raw "type" with
  | some (JValue.str t) => dispatchTag t raw
  | _ => Except.error "Event payload is missing a \x27type\x27 field"

/-! ## Side-channel extractor (src/src/codex_sdk/middleware/parser.py)

`_PARAMS_PATTERN` is `params=(\{.*?\})\s+jsonrpc=` with DOTALL: the search
finds the leftmost start where the whole pattern matches; the lazy group
stops at the first closing brace followed by whitespace and `jsonrpc=`.
`searchParams` implements exactly that search over the characters of the
message and returns the captured group (braces included). -/

/-- Does the pattern text `p` stand at the head of `cs`? -/
def leadsWith : List Char → List Char → Bool
  | [], _ => true
  | _ :: _, [] => false
  | p :: ps, c :: cs => p = c && leadsWith ps cs

/-- After at least one whitespace character, skip whitespace and require
the text `jsonrpc=` (the tail `\s+jsonrpc=` of the pattern). -/
def jsonrpcAfterGap : List Char → Bool
  | [] => false
  | c :: rest =>
    if isSpaceChar c then jsonrpcAfterGap rest
    else leadsWith ("jsonrpc=".toList) (c :: rest)

/-- `\s+jsonrpc=`: one mandatory whitespace character, then the rest. -/
def gapThenJsonrpc : List Char → Bool
  | [] => false
  | c :: rest => isSpaceChar c && jsonrpcAfterGap rest

/-- The lazy `.*?\}` of the group: consume characters up to the first
closing brace whose tail matches `\s+jsonrpc=`; return the consumed
characters including that brace. -/
def scanClose (acc : List Char) : List Char → Option (List Char)
  | [] => none
  | c :: rest =>
    if c = '\x7d' && gapThenJsonrpc rest then some (acc.reverse ++ ['\x7d'])
    else scanClose (c :: acc) rest

/-- `re.search` of `_PARAMS_PATTERN`: try each start position from the
left; at a position where `params={` stands, capture up to the first
viable closing brace; if no closing brace completes the match there, move
the start right (regex backtracking) and try again. -/
def searchParams : List Char → Option (List Char)
  | [] => none
  | c :: rest =>
    if leadsWith ("params=\x7b".toList) (c :: rest) then
      match scanClose [] ((c :: rest).drop 8) with
      | some frag => some ('\x7b' :: frag)
      | none => searchParams rest
    else searchParams rest

/-- Python dict assignment `d[k] = v`: replace the binding in place or
append a new one. -/
def dictSet : List (String × JValue) → String → JValue → List (String × JValue)
  | [], k, v => [(k, v)]
  | (k0, v0) :: rest, k, v =>
    if k0 = k then (k, v) :: rest else (k0, v0) :: dictSet rest k v

/-- The body of the loader loop of `extract_event_payload`: a loader's
output is usable when it is a mapping holding a `msg` mapping and a
`_meta` mapping; return those two. -/
def goodParams : Option JValue → Option (List (String × JValue) × List (String × JValue))
  | some (JValue.obj p) =>
    match dget p "msg", dget p "_meta" with
    | some (JValue.obj m), some (JValue.obj mt) => some (m, mt)
    | _, _ => none
  | _ => none

/-- `extract_event_payload`: find the params fragment; decode it with
`ast.literal_eval` first and `json.loads` second (the two stdlib decoders
are passed in as `loadA` and `loadJ`); on the first decoder whose output
is a mapping with `msg` and `_meta` mappings, return `dict(msg)` with
`_meta` assigned; otherwise return `None`. -/
def extract_event_payload (loadA loadJ : String → Option JValue) (message : String) :
    Option (List (String × JValue)) :=
  match searchParams message.toList with
  | none => none
  | some frag =>
    let fs := String.mk frag
    match goodParams (loadA fs) with
    | some p => some (dictSet p.1 "_meta" (JValue.obj p.2))
    | none =>
      match goodParams (loadJ fs) with
      | some p => some (dictSet p.1 "_meta" (JValue.obj p.2))
      | none => none

/-- `parse_event_from_message`: extract the payload, then decode it with
`parse_event`, turning any decode failure into `None`. -/
def parse_event_from_message (loadA loadJ : String → Option JValue) (message : String) :
    Option ParsedEvent :=
  match extract_event_payload loadA loadJ message with
  | none => none
  | some payload =>
    match parse_event payload with
    | Except.ok e => some e
    | Except.error _ => none

/-! ## Conversation identifier (src/src/codex_sdk/session.py)

`Session._extract_conversation_id` scans each content item's text with
`re.findall` over the raw-string pattern

  r backslash backslash b [a-f0-9]x8 - [a-f0-9]x4 - [a-f0-9]x4 -
    [a-f0-9]x4 - [a-f0-9]x12 backslash backslash b

with `re.IGNORECASE`.  Inside a raw string the doubled backslash stays two
characters, so the regular expression reads them as one escaped literal
backslash followed by the letter `b` — not as a word boundary.  The
matcher below implements exactly that compiled pattern. -/

/-- `[a-f0-9]` with `re.IGNORECASE`. -/
def isHexChar (c : Char) : Bool :=
  ('0' ≤ c && c ≤ '9') || ('a' ≤ c && c ≤ 'f') || ('A' ≤ c && c ≤ 'F')

/-- Consume one literal backslash and one `b` (case-insensitive). -/
def matchEscB : List Char → Option (List Char)
  | '\\' :: c :: rest => if c = 'b' || c = 'B' then some rest else none
  | _ => none

/-- Consume exactly `n` hex characters. -/
def matchHex : Nat → List Char → Option (List Char)
  | 0, cs => some cs
  | _ + 1, [] => none
  | n + 1, c :: cs => if isHexChar c then matchHex n cs else none

/-- Consume one expected literal character. -/
def matchChar (ch : Char) : List Char → Option (List Char)
  | [] => none
  | c :: rest => if c = ch then some rest else none

/-- Does the full compiled pattern match at the head of `cs`? -/
def matchUuidPattern (cs : List Char) : Bool :=
  ((((((((((matchEscB cs).bind (matchHex 8)).bind (matchChar '-')).bind
    (matchHex 4)).bind (matchChar '-')).bind (matchHex 4)).bind
    (matchChar '-')).bind (matchHex 4)).bind (matchChar '-')).bind
    (matchHex 12)).bind matchEscB |>.isSome

/-- `re.findall(...)[0]`: the leftmost match of the pattern (its total
length is fixed at 40 characters). -/
def uuidFindFirst : List Char → Option String
  | [] => none
  | c :: rest =>
    if matchUuidPattern (c :: rest) then some (String.mk ((c :: rest).take 40))
    else uuidFindFirst rest

/-- `Session._extract_conversation_id`: walk the content items, return the
first match found in an item that carries text; `None` when the content is
empty or nothing matches. -/
def extract_conversation_id : List (Option String) → Option String
  | [] => none
  | none :: rest => extract_conversation_id rest
  | some text :: rest =>
    match uuidFindFirst text.toList with
    | some m => some m
    | none => extract_conversation_id rest

/-- `Session.chat` tool selection: `codex-reply` when a conversation
identifier is held, else `codex`. -/
def chat_tool_name (conversationId : Option String) : String :=
  match conversationId with
  | some _ => "codex-reply"
  | none => "codex"

/-! ## The specification's claimed preference order for the final text -/

/-- Modelled from the spec, for comparison with `Message.get`: the claimed
preference order for the final text of a drained turn — a
`task_complete` event's `last_agent_message` when one was observed,
else the concatenated `agent_message_delta` text when non-empty, else the
text extracted from the raw call result payload. -/
def spec_preferred_text (events : List RawEvent) (payload : Payload) : Option String :=
  match events.filterMap (fun e =>
      if isType e "task_complete" then
        match dget e "last_agent_message" with
        | some (JValue.str s) => some s
        | _ => none
      else none) with
  | m :: _ => some m
  | [] =>
    let acc := concat_strs (delta_chunks events)
    if acc ≠ "" then some acc
    else
      let t := extract_text payload
      if t ≠ "" then some t else none

/-! ## Shared lemmas -/

theorem stream_idle (n : Nat) : ∀ t : Nat, t < 50 → 50 ≤ t + n →
    get_event_stream (List.replicate n none) t = ([], 50 - t) := by
  induction n with
  | zero => intro t h1 h2; omega
  | succ n ih =>
    intro t h1 h2
    rw [List.replicate_succ]
    show get_event_stream (none :: List.replicate n none) t = ([], 50 - t)
    by_cases hc : t + 1 ≥ max_consecutive_timeouts
    · have ht : t = 49 := by
        simp [max_consecutive_timeouts] at hc; omega
      simp [get_event_stream, max_consecutive_timeouts, ht]
    · have h1' : t + 1 < 50 := by
        simp [max_consecutive_timeouts] at hc; omega
      have := ih (t + 1) h1' (by omega)
      simp only [get_event_stream, if_neg hc, this]
      have : 50 - (t + 1) + 1 = 50 - t := by omega
      rw [this]

theorem bridge_fifo (evs : List RawEvent) (tc : RawEvent) (rest : List (Option RawEvent))
    (h : ∀ e ∈ evs, isType e "task_complete" = false)
    (htc : isType tc "task_complete" = true) :
    get_event_stream ((evs ++ [tc]).map some ++ rest) 0 = (evs ++ [tc], evs.length + 1) := by
  induction evs with
  | nil => simp [get_event_stream, htc]
  | cons e es ih =>
    have he : isType e "task_complete" = false := h e (by simp)
    have ih' := ih fun x hx => h x (by simp [hx])
    simp only [List.map_append, List.map_cons, List.map_nil, List.append_assoc,
      List.singleton_append, List.cons_append, List.nil_append] at ih' ⊢
    simp [get_event_stream, he, ih']

/-- C2: pushing a finite sequence of events ending in a `task_complete`
event into the bridge, a consumer draining the stream observes exactly
that sequence in push order, and the stream ends right after the
`task_complete` event — whatever else the pull trace holds afterwards,
and after exactly one pull per event. -/
theorem C2_bridge_fifo_until_task_complete (evs : List RawEvent) (tc : RawEvent)
    (rest : List (Option RawEvent))
    (h : ∀ e ∈ evs, isType e "task_complete" = false)
    (htc : isType tc "task_complete" = true) :
    get_event_stream ((evs ++ [tc]).map some ++ rest) 0 = (evs ++ [tc], evs.length + 1) :=
  bridge_fifo evs tc rest h htc

/-- Witness for C2 at a concrete push sequence [A, B, TaskComplete]. -/
theorem C2_bridge_fifo_until_task_complete_witness :
    get_event_stream
      (([[("type", JValue.str "agent_message")],
         [("type", JValue.str "agent_message_delta"), ("delta", JValue.str "x")]] ++
        [[("type", JValue.str "task_complete")]]).map some ++
        [none, some [("type", JValue.str "late")]]) 0 =
      ([[("type", JValue.str "agent_message")],
        [("type", JValue.str "agent_message_delta"), ("delta", JValue.str "x")],
        [("type", JValue.str "task_complete")]], 3) :=
  C2_bridge_fifo_until_task_complete
    [[("type", JValue.str "agent_message")],
     [("type", JValue.str "agent_message_delta"), ("delta", JValue.str "x")]]
    [("type", JValue.str "task_complete")]
    [none, some [("type", JValue.str "late")]]
    (by intro e he; fin_cases he <;> rfl)
    rfl

/-- C3: a bridge that receives no events at all terminates by the
idle-abort policy: iteration yields nothing and performs exactly the
configured idle budget of `max_consecutive_timeouts = 50` consecutive
timed-out pulls before stopping, however many further timeouts the pull
trace would offer. -/
theorem C3_bridge_idle_abort (n : Nat) (h : 50 ≤ n) :
    get_event_stream (List.replicate n none) 0 = ([], 50) :=
  stream_idle n 0 (by omega) (by omega)

/-- Witness for C3 at a pull trace of 60 timeouts. -/
theorem C3_bridge_idle_abort_witness :
    get_event_stream (List.replicate 60 none) 0 = ([], 50) :=
  C3_bridge_idle_abort 60 (by omega)

/-- C6 (code bug): on a first turn whose result text is
"id: 93e85b8b-f1c1-47b9-886a-0be32c255f1f done", the conversation
identifier extraction of `Session._extract_conversation_id` finds nothing
— the doubled backslash inside the source's raw string makes the pattern
demand a literal backslash and the letter b around the UUID, so the
word-boundary search the specification describes never happens — and the
next turn is therefore issued with the fresh-call tool name "codex", not
the continuation tool "codex-reply". -/
theorem C6_conversation_id_extraction_fails :
    extract_conversation_id [some "id: 93e85b8b-f1c1-47b9-886a-0be32c255f1f done"] = none ∧
    chat_tool_name
      (extract_conversation_id [some "id: 93e85b8b-f1c1-47b9-886a-0be32c255f1f done"]) =
      "codex" := by
  constructor
  · rfl
  · rfl

/-- Every `delta` field that iteration would concatenate is a string: the
events of a stream whose truthy deltas are strings (a truthy non-string
delta would make the source's `+=` raise `TypeError`). -/
def deltasAreStrings (events : List RawEvent) : Prop :=
  ∀ e ∈ events, isType e "agent_message_delta" = true →
    ∀ v, dget e "delta" = some v → truthy v = true → ∃ d, v = JValue.str d

theorem messageIterate_spec (events : List RawEvent) (h : deltasAreStrings events) :
    messageIterate events =
      Except.ok (delta_chunks events, concat_strs (delta_chunks events)) := by
  induction events with
  | nil => rfl
  | cons e rest ih =>
    have ih' := ih fun x hx => h x (List.mem_cons_of_mem _ hx)
    by_cases ht : isType e "agent_message_delta"
    · cases hd : dget e "delta" with
      | none =>
        simp [messageIterate, delta_chunks, ht, hd, truthy, ih']
      | some v =>
        by_cases htr : truthy v
        · obtain ⟨d, rfl⟩ := h e (List.mem_cons_self _ _) ht v hd htr
          have hdne : d ≠ "" := by
            simpa [truthy] using htr
          simp [messageIterate, delta_chunks, ht, hd, htr, ih', hdne, concat_strs,
            List.filterMap_cons, Except.map]
        · cases v <;>
            simp_all [messageIterate, delta_chunks, ht, hd, truthy, ih', concat_strs]
    · simp [messageIterate, delta_chunks, ht, ih']

theorem get_after_drain_eq (events : List RawEvent) (payload : Payload)
    (h : deltasAreStrings events) :
    message_get_after_drain events payload =
      Except.ok (if concat_strs (delta_chunks events) = "" then extract_text payload
                 else concat_strs (delta_chunks events)) := by
  unfold message_get_after_drain mk_drained
  rw [messageIterate_spec events h]
  by_cases hc : concat_strs (delta_chunks events) = ""
  · simp [Except.map, Except.bind, Message.get, Message.getResult, hc]
  · simp [Except.map, Except.bind, Message.get, Message.getResult, hc]

/-- C1 counterexample: a drained turn that observed
`TaskComplete.last_agent_message = "Bye"` after a delta "Hi" — the claimed
preference order would return "Bye", but `Message.get` returns the
accumulated delta text "Hi"; the code never consults the
`task_complete` event's text. -/
theorem C1_preference_order_counterexample :
    message_get_after_drain
        [[("type", JValue.str "agent_message_delta"), ("delta", JValue.str "Hi")],
         [("type", JValue.str "task_complete"), ("last_agent_message", JValue.str "Bye")]]
        ⟨[some "raw"]⟩ = Except.ok "Hi" ∧
    spec_preferred_text
        [[("type", JValue.str "agent_message_delta"), ("delta", JValue.str "Hi")],
         [("type", JValue.str "task_complete"), ("last_agent_message", JValue.str "Bye")]]
        ⟨[some "raw"]⟩ = some "Bye" ∧
    ("Hi" : String) ≠ "Bye" := by
  refine ⟨rfl, rfl, ?_⟩
  decide

/-- C1 amended: for a drained turn, `Message.get` returns the
concatenation of the accumulated `AgentMessageDelta` texts when that is
non-empty, and otherwise the text extracted from the raw call result
payload; a `TaskComplete.last_agent_message` observed in the stream is
never consulted. -/
theorem C1_final_text_of_drained_turn (events : List RawEvent) (payload : Payload)
    (h : deltasAreStrings events) :
    message_get_after_drain events payload =
      Except.ok (if concat_strs (delta_chunks events) = "" then extract_text payload
                 else concat_strs (delta_chunks events)) :=
  get_after_drain_eq events payload h

/-- Witness for C1 at the concrete drained stream [delta "Hi"] and payload
text "raw". -/
theorem C1_final_text_of_drained_turn_witness :
    message_get_after_drain
        [[("type", JValue.str "agent_message_delta"), ("delta", JValue.str "Hi")]]
        ⟨[some "raw"]⟩ =
      Except.ok
        (if concat_strs (delta_chunks
              [[("type", JValue.str "agent_message_delta"), ("delta", JValue.str "Hi")]]) = ""
         then extract_text ⟨[some "raw"]⟩
         else concat_strs (delta_chunks
              [[("type", JValue.str "agent_message_delta"), ("delta", JValue.str "Hi")]])) :=
  C1_final_text_of_drained_turn
    [[("type", JValue.str "agent_message_delta"), ("delta", JValue.str "Hi")]]
    ⟨[some "raw"]⟩
    (by
      intro e he ht v hv htr
      simp only [List.mem_singleton] at he
      subst he
      simp only [dget, if_neg, if_pos] at hv
      exact ⟨"Hi", by simpa using hv.symm⟩)

/-- C7 counterexample: a turn with no `task_complete` text, no accumulated
delta text, and a raw call result payload with no text content — the
claimed behavior is a missing-final-text failure, but `Message.get`
returns the empty string: `_extract_text` assigns the empty string (not
`None`) when no text is found, so the `MessageError` branch is not
reached. -/
theorem C7_no_text_counterexample :
    message_get_after_drain [] ⟨[]⟩ = Except.ok "" := rfl

/-- C7 amended: when no source yields text — no accumulated delta text and
a payload whose extraction is empty — the result operation returns the
empty string; the missing-final-text error is raised only when
`_final_text` is `None`, which extraction never leaves behind. -/
theorem C7_no_text_returns_empty (events : List RawEvent) (payload : Payload)
    (h : deltasAreStrings events)
    (hempty : concat_strs (delta_chunks events) = "")
    (hextract : extract_text payload = "") :
    message_get_after_drain events payload = Except.ok "" := by
  rw [get_after_drain_eq events payload h, if_pos hempty, hextract]

/-- Witness for C7 at the empty stream and a payload whose single content
item has no text attribute. -/
theorem C7_no_text_returns_empty_witness :
    message_get_after_drain [] ⟨[none]⟩ = Except.ok "" :=
  C7_no_text_returns_empty [] ⟨[none]⟩ (by intro e he; cases he) rfl rfl

/-- C10: iterating a message over the raw events delivered by its event
stream yields exactly the non-empty `delta` strings of the
`agent_message_delta` events, in stream order; every other event (and a
delta-less or empty-delta `agent_message_delta` event) is consumed without
being yielded, and `_streamed_text` accumulates exactly the concatenation
of the yielded chunks. -/
theorem C10_iteration_yields_delta_chunks (events : List RawEvent)
    (h : deltasAreStrings events) :
    messageIterate events =
      Except.ok (delta_chunks events, concat_strs (delta_chunks events)) :=
  messageIterate_spec events h

/-- Witness for C10 at a concrete stream mixing kinds, an empty delta and
a missing delta. -/
theorem C10_iteration_yields_delta_chunks_witness :
    messageIterate
        [[("type", JValue.str "task_started"), ("model_context_window", JValue.num 4)],
         [("type", JValue.str "agent_message_delta"), ("delta", JValue.str "a")],
         [("type", JValue.str "agent_message_delta"), ("delta", JValue.str "")],
         [("type", JValue.str "agent_message_delta")],
         [("type", JValue.str "agent_message_delta"), ("delta", JValue.str "b")]] =
      Except.ok (["a", "b"], "ab") := by
  have h := C10_iteration_yields_delta_chunks
    [[("type", JValue.str "task_started"), ("model_context_window", JValue.num 4)],
     [("type", JValue.str "agent_message_delta"), ("delta", JValue.str "a")],
     [("type", JValue.str "agent_message_delta"), ("delta", JValue.str "")],
     [("type", JValue.str "agent_message_delta")],
     [("type", JValue.str "agent_message_delta"), ("delta", JValue.str "b")]]
    (by
      intro e he ht v hv htr
      fin_cases he <;> simp [dget] at hv ht ⊢ <;> exact ⟨_, hv.symm⟩)
  simpa using h

theorem get_of_cached_streamed (m : Message) (r : Payload) (hc : m.resultCache = some r)
    (hs : m.streamedText ≠ "") : Message.get m = (Except.ok m.streamedText, m, false) := by
  unfold Message.get Message.getResult
  rw [hc]
  simp [hs]

theorem get_of_cached_extracted (m : Message) (r : Payload) (t : String)
    (hc : m.resultCache = some r) (hs : m.streamedText = "") (he : m.extracted = true)
    (hf : m.finalText = some t) : Message.get m = (Except.ok t, m, false) := by
  unfold Message.get Message.getResult
  rw [hc]
  simp [hs, he, hf]

theorem get_ok_inv (m : Message) (t : String) (m1 : Message) (aw : Bool)
    (h : Message.get m = (Except.ok t, m1, aw)) :
    (∃ r, m1.resultCache = some r) ∧
    ((m1.streamedText ≠ "" ∧ t = m1.streamedText) ∨
     (m1.streamedText = "" ∧ m1.extracted = true ∧ m1.finalText = some t)) := by
  obtain ⟨st, rc, tr, ex, ft⟩ := m
  by_cases hs : st = "" <;>
    cases rc <;> cases ex <;> cases ft <;>
      simp_all [Message.get, Message.getResult, Prod.ext_iff] <;>
      obtain ⟨h1, h2, h3⟩ := h <;>
      subst h2 <;> simp_all

/-- C8: a second call of the result operation after a successful first
call returns the same text and leaves the state unchanged, and it does
not await the remote-call task again (the awaited flag of the second call
is `false`); `Message.get` by definition never reads the event stream, so
neither call consumes it. -/
theorem C8_get_idempotent (m : Message) (t : String) (m1 : Message) (aw : Bool)
    (h : Message.get m = (Except.ok t, m1, aw)) :
    Message.get m1 = (Except.ok t, m1, false) := by
  obtain ⟨⟨r, hc⟩, hcase⟩ := get_ok_inv m t m1 aw h
  rcases hcase with ⟨hs, ht⟩ | ⟨hs, he, hf⟩
  · rw [ht]
    exact get_of_cached_streamed m1 r hc hs
  · exact get_of_cached_extracted m1 r t hc hs he hf

/-- Witness for C8 at a fresh message whose task resolves to a payload
with text "hello". -/
theorem C8_get_idempotent_witness :
    Message.get
        { streamedText := "", resultCache := some ⟨[some "hello"]⟩,
          taskResult := ⟨[some "hello"]⟩, extracted := true,
          finalText := some "hello" } =
      (Except.ok "hello",
       { streamedText := "", resultCache := some ⟨[some "hello"]⟩,
         taskResult := ⟨[some "hello"]⟩, extracted := true,
         finalText := some "hello" }, false) :=
  C8_get_idempotent
    { streamedText := "", resultCache := none, taskResult := ⟨[some "hello"]⟩,
      extracted := false, finalText := none }
    "hello"
    { streamedText := "", resultCache := some ⟨[some "hello"]⟩,
      taskResult := ⟨[some "hello"]⟩, extracted := true,
      finalText := some "hello" }
    true
    rfl

/-- C9 counterexample: an `mcp_tool_call_end` raw event payload that is
well-formed in every field and whose `result` is an error payload (an
`Err` mapping, the error arm of the wire-level result) fails typed
decoding — `McpToolOkResult` requires an `Ok` mapping — although the
claim states decoding succeeds for error payloads too. -/
theorem C9_error_payload_rejected :
    parse_event
        [("type", JValue.str "mcp_tool_call_end"),
         ("_meta", JValue.obj [("requestId", JValue.num 1)]),
         ("call_id", JValue.str "call-1"),
         ("duration", JValue.obj [("secs", JValue.num 1), ("nanos", JValue.num 0)]),
         ("invocation", JValue.obj [("server", JValue.str "srv"),
            ("tool", JValue.str "tool"), ("arguments", JValue.obj [])]),
         ("result", JValue.obj [("Err", JValue.str "boom")])] =
      Except.error "ValidationError" := rfl

/-- C9 amended: a well-formed `mcp_tool_call_end` raw event payload whose
`result` field is a success payload — a mapping with an `Ok` key holding a
mapping — decodes to an `mcp_tool_call_end` event carrying the call id,
the duration, and that result; error payloads (no `Ok` key) are rejected
as malformed. -/
theorem C9_mcp_tool_call_end_ok_decodes (rid secs nanos : Int)
    (cid srv tl : String) (args okPayload : List (String × JValue)) :
    parse_event
        [("type", JValue.str "mcp_tool_call_end"),
         ("_meta", JValue.obj [("requestId", JValue.num rid)]),
         ("call_id", JValue.str cid),
         ("duration", JValue.obj [("secs", JValue.num secs), ("nanos", JValue.num nanos)]),
         ("invocation", JValue.obj [("server", JValue.str srv),
            ("tool", JValue.str tl), ("arguments", JValue.obj args)]),
         ("result", JValue.obj [("Ok", JValue.obj okPayload)])] =
      Except.ok
        { type := "mcp_tool_call_end", request_id := rid,
          data := [("type", JValue.str "mcp_tool_call_end"),
                   ("_meta", JValue.obj [("requestId", JValue.num rid)]),
                   ("call_id", JValue.str cid),
                   ("duration", JValue.obj [("secs", JValue.num secs),
                      ("nanos", JValue.num nanos)]),
                   ("invocation", JValue.obj [("server", JValue.str srv),
                      ("tool", JValue.str tl), ("arguments", JValue.obj args)]),
                   ("result", JValue.obj [("Ok", JValue.obj okPayload)])],
          extra := [] } := rfl

/-- C5: for every diagnostic message in which the params pattern matches
and captures a fragment, the extractor consults the permissive decoder
first and the strict JSON decoder only as fallback; when neither decoder
yields a mapping holding a `msg` mapping and a `_meta` mapping, or when
typed decoding of the merged mapping fails, no event is produced (and the
total `Option`-valued embedding raises nothing); on success the produced
payload is `dict(msg)` with the `_meta` mapping assigned. -/
theorem C5_extractor_pipeline (loadA loadJ : String → Option JValue)
    (message : String) (frag : List Char)
    (hcap : searchParams message.toList = some frag) :
    ((goodParams (loadA (String.mk frag)) = none ∧
      goodParams (loadJ (String.mk frag)) = none) →
      extract_event_payload loadA loadJ message = none ∧
      parse_event_from_message loadA loadJ message = none) ∧
    (∀ m mt, goodParams (loadA (String.mk frag)) = some (m, mt) →
      extract_event_payload loadA loadJ message =
        some (dictSet m "_meta" (JValue.obj mt))) ∧
    (∀ m mt, goodParams (loadA (String.mk frag)) = none →
      goodParams (loadJ (String.mk frag)) = some (m, mt) →
      extract_event_payload loadA loadJ message =
        some (dictSet m "_meta" (JValue.obj mt))) ∧
    (∀ p err, extract_event_payload loadA loadJ message = some p →
      parse_event p = Except.error err →
      parse_event_from_message loadA loadJ message = none) ∧
    (∀ p e, extract_event_payload loadA loadJ message = some p →
      parse_event p = Except.ok e →
      parse_event_from_message loadA loadJ message = some e) := by
  refine ⟨?_, ?_, ?_, ?_, ?_⟩
  · rintro ⟨ha, hj⟩
    have hext : extract_event_payload loadA loadJ message = none := by
      unfold extract_event_payload
      rw [hcap]
      simp [ha, hj]
    refine ⟨hext, ?_⟩
    unfold parse_event_from_message
    rw [hext]
  · intro m mt ha
    unfold extract_event_payload
    rw [hcap]
    simp [ha]
  · intro m mt ha hj
    unfold extract_event_payload
    rw [hcap]
    simp [ha, hj]
  · intro p err hp herr
    unfold parse_event_from_message
    rw [hp]
    simp [herr]
  · intro p e hp he
    unfold parse_event_from_message
    rw [hp]
    simp [he]

/-- Witness for C5: a concrete matching message with decoders that fail,
taking the silent-drop branch. -/
theorem C5_extractor_pipeline_witness :
    searchParams ("params={x} jsonrpc=".toList) = some ("{x}".toList) ∧
    extract_event_payload (fun _ => none) (fun _ => none) "params={x} jsonrpc=" = none ∧
    parse_event_from_message (fun _ => none) (fun _ => none) "params={x} jsonrpc=" = none := by
  refine ⟨rfl, ?_, ?_⟩
  · exact ((C5_extractor_pipeline (fun _ => none) (fun _ => none)
      "params={x} jsonrpc=" ("{x}".toList) rfl).1 ⟨rfl, rfl⟩).1
  · exact ((C5_extractor_pipeline (fun _ => none) (fun _ => none)
      "params={x} jsonrpc=" ("{x}".toList) rfl).1 ⟨rfl, rfl⟩).2
